import Mathlib

/-!
Verification of the cellmlmanip unit store and parser.

This file gives a shallow embedding of the two source modules

  * src/cellmlmanip/units.py  (class UnitStore and its helpers), and
  * src/cellmlmanip/parser.py (class Parser, group / component_ref and math handling),

and proves the specified properties about them.

Modelling choices, recorded once here:

  * Pint units are modelled semantically.  A pint unit is determined by its
    dimensionality vector (integer exponents over the seven SI base dimensions,
    pint allows custom base dimensions which none of the checked claims use)
    and a positive rational scale factor relative to the base units.  The
    registry of a pint UnitRegistry is modelled as an association list from
    unit names to such units.  Pint resolves metric-prefixed spellings such as
    "millisecond"; the model carries them as explicit registry entries.
  * Python floats are modelled as rationals, and math.isclose is transcribed
    literally with its default tolerances (rel_tol = 1e-9, abs_tol = 0.0).
  * _make_cellml_unit builds a pint definition STRING and registers it with
    ureg.define; the model registers the unit value that the string denotes:
    the product over the fragment units, each with its metric prefix scale
    applied first and its integer exponent applied second, exactly the
    "prefix" / "((expr)**exponent)" construction of units.py lines 124-141.
    CellML rational exponents and numeric prefixes are outside the model.
  * Exceptions are modelled with Except String carrying the exact message
    text; the Python exception class is recorded in the message where the
    tests pattern-match on it.  Python state mutations that happen before an
    exception propagates are discarded by the Except model; no checked claim
    depends on the post-error state.
  * get_quantity and _make_cellml_unit are mutually recursive through the
    custom definitions and may diverge on cyclic definitions (Python would
    hit the interpreter recursion limit); the model threads an explicit fuel
    argument, and every theorem holds for every sufficient fuel.
-/

/-- Dimensionality vector of a pint unit: integer exponents of the seven SI
base dimensions (pint dimensionality, compared with == in units.py). -/
structure Dimension where
  length : Int := 0
  mass : Int := 0
  time : Int := 0
  current : Int := 0
  temperature : Int := 0
  amount : Int := 0
  luminosity : Int := 0
deriving DecidableEq, Repr

/-- Semantic model of a pint unit object: a rational scale factor to the SI
base units together with a dimensionality vector. -/
structure PintUnit where
  scale : ℚ
  dim : Dimension
deriving DecidableEq, Repr

/-- Product of two units: scales multiply, dimension exponents add. -/
def PintUnit.mul (u1 u2 : PintUnit) : PintUnit :=
  ⟨u1.scale * u2.scale,
   ⟨u1.dim.length + u2.dim.length, u1.dim.mass + u2.dim.mass, u1.dim.time + u2.dim.time,
    u1.dim.current + u2.dim.current, u1.dim.temperature + u2.dim.temperature,
    u1.dim.amount + u2.dim.amount, u1.dim.luminosity + u2.dim.luminosity⟩⟩

/-- Integer power of a unit: scale is raised to the power, dimension
exponents are multiplied by it. -/
def PintUnit.zpowU (u : PintUnit) (z : Int) : PintUnit :=
  ⟨u.scale ^ z,
   ⟨u.dim.length * z, u.dim.mass * z, u.dim.time * z, u.dim.current * z,
    u.dim.temperature * z, u.dim.amount * z, u.dim.luminosity * z⟩⟩

/-- The dimensionless unit 1, neutral element of the fragment product. -/
def unitOne : PintUnit := ⟨1, {}⟩

/-- One <unit> child element of a CellML <units> definition, as collected by
Parser.__add_units (parser.py lines 71-86): a referenced unit name with an
optional metric prefix and an optional integer exponent.  The unit attribute
dictionaries of the parser are modelled as this record; entries consisting
only of base_units="yes" are outside the model (_make_cellml_unit would fail
on them, units.py line 119 TODO). -/
structure UnitFragment where
  units : String
  pfx : Option String := none
  exponent : Option Int := none
deriving DecidableEq, Repr

/-- State of a UnitStore instance (units.py lines 67-81): the pint unit
registry self.ureg, the custom CellML <units> definitions handed to the
constructor (self.cellml_definitions) and the set of names already
materialised into the registry (self.cellml_defined). -/
structure UnitStore where
  ureg : List (String × PintUnit)
  cellml_definitions : List (String × List UnitFragment)
  cellml_defined : List String
deriving DecidableEq, Repr

/-- Scale factors of the metric prefixes understood by pint when a prefix
string is glued onto a unit name (units.py line 128). -/
def pfxScale (p : String) : Option ℚ :=
  match p with
  | "deca" => some 10
  | "hecto" => some 100
  | "kilo" => some 1000
  | "mega" => some 1000000
  | "giga" => some 1000000000
  | "deci" => some (1/10)
  | "centi" => some (1/100)
  | "milli" => some (1/1000)
  | "micro" => some (1/1000000)
  | "nano" => some (1/1000000000)
  | _ => none

/-- Applies the optional metric prefix of a fragment, units.py line 127-128:
expr = prefix + expr.  An unknown prefix makes the later ureg.define call
fail with an undefined-unit error. -/
def applyPfx (p : Option String) (u : PintUnit) : Except String PintUnit :=
  match p with
  | none => Except.ok u
  | some p =>
    match pfxScale p with
    | some k => Except.ok ⟨k * u.scale, u.dim⟩
    | none => Except.error ("UndefinedUnitError: prefix " ++ p)

/-- Applies the optional exponent of a fragment, units.py lines 130-131:
expr = ((expr)**exponent), evaluated after the prefix. -/
def applyExponent (e : Option Int) (u : PintUnit) : PintUnit :=
  match e with
  | none => u
  | some z => u.zpowU z

/-- The fragment loop of _make_cellml_unit (units.py lines 117-137): each
<unit> element resolves its referenced name through get_quantity (threading
the store state), applies prefix then exponent, and the results are joined
into one product.  The recursive call to get_quantity is passed in as gq,
already specialised to the remaining fuel. -/
def resolveFragments (gq : UnitStore → String → Except String (PintUnit × UnitStore)) :
    List UnitFragment → PintUnit → UnitStore → Except String (PintUnit × UnitStore)
  | [], acc, s => Except.ok (acc, s)
  | f :: rest, acc, s =>
    match gq s f.units with
    | Except.error e => Except.error e
    | Except.ok (u0, s') =>
      match applyPfx f.pfx u0 with
      | Except.error e => Except.error e
      | Except.ok u1 => resolveFragments gq rest (acc.mul (applyExponent f.exponent u1)) s'

/-- UnitStore._make_cellml_unit (units.py lines 112-141): reads the CellML
definition of custom_unit_name and produces the unit that the generated pint
definition string denotes, together with the store state after the recursive
get_quantity calls.  Accessing a missing key raises KeyError in Python. -/
def make_cellml_unit (gq : UnitStore → String → Except String (PintUnit × UnitStore))
    (s : UnitStore) (custom_unit_name : String) : Except String (PintUnit × UnitStore) :=
  match s.cellml_definitions.lookup custom_unit_name with
  | none => Except.error "KeyError"
  | some frags => resolveFragments gq frags unitOne s

/-- First half of UnitStore.get_quantity (units.py lines 94-103): if
unit_name is a custom CellML definition that has not been materialised, try
getattr(self.ureg, unit_name); when that fails with UndefinedUnitError,
build the definition with _make_cellml_unit, register it with ureg.define
and record the name in cellml_defined. -/
def buildCustom (gq : UnitStore → String → Except String (PintUnit × UnitStore))
    (s : UnitStore) (unit_name : String) : Except String UnitStore :=
  if (s.cellml_definitions.lookup unit_name).isSome && !(s.cellml_defined.contains unit_name) then
    match s.ureg.lookup unit_name with
    | some _ => Except.ok s
    | none =>
      match make_cellml_unit gq s unit_name with
      | Except.error e => Except.error e
      | Except.ok (u, s2) =>
        Except.ok { s2 with ureg := (unit_name, u) :: s2.ureg,
                            cellml_defined := unit_name :: s2.cellml_defined }
  else Except.ok s

/-- UnitStore.get_quantity (units.py lines 87-110): after the optional
custom-definition step, self.ureg.parse_expression(unit_name).units looks the
name up in the registry; an UndefinedUnitError is converted into
ValueError("Cannot find the unit with name \x22name\x22").  The first
argument is the recursion fuel of the model. -/
def get_quantity : Nat → UnitStore → String → Except String (PintUnit × UnitStore)
  | 0, _, _ => Except.error "RecursionError: maximum recursion depth exceeded"
  | n+1, s, unit_name =>
    match buildCustom (get_quantity n) s unit_name with
    | Except.error e => Except.error e
    | Except.ok s1 =>
      match s1.ureg.lookup unit_name with
      | some u => Except.ok (u, s1)
      | none => Except.error ("Cannot find the unit with name \"" ++ unit_name ++ "\"")

/-- Literal transcription of math.isclose with its default tolerances
rel_tol = 1e-9 and abs_tol = 0.0 (used by units.py line 152). -/
def isClose (a b : ℚ) : Bool :=
  decide (|a - b| ≤ max ((1/1000000000) * max |a| |b|) 0)

/-- UnitStore.is_unit_equal (units.py lines 148-155) on two pint units:
q1 = 1 * u1 and q2 = 1 * u2 (one_of_unit), and the result is
q1.dimensionality == q2.dimensionality and isclose(q1.to(q2).magnitude,
q1.magnitude); converting 1 * u1 into u2 gives magnitude
u1.scale / u2.scale, compared against magnitude 1. -/
def is_unit_equal (u1 u2 : PintUnit) : Bool :=
  decide (u1.dim = u2.dim) && isClose (u1.scale / u2.scale) 1

/-- UnitStore.get_conversion_factor (units.py lines 181-191): asserts equal
dimensionality, then returns (1 * from_unit).to(1 * to_unit).magnitude, the
scale ratio of the two units. -/
def get_conversion_factor (from_unit to_unit : PintUnit) : Except String ℚ :=
  if from_unit.dim = to_unit.dim then Except.ok (from_unit.scale / to_unit.scale)
  else Except.error "AssertionError: from_unit.dimensionality == to_unit.dimensionality"

/-- The units from the default pint registry that this development mentions.
Pint derives the prefixed spellings from its prefix table; the model lists
the ones it needs as explicit entries. -/
def secondU : PintUnit := ⟨1, { time := 1 }⟩

def millisecondU : PintUnit := ⟨1/1000, { time := 1 }⟩

def meterU : PintUnit := ⟨1, { length := 1 }⟩

def voltU : PintUnit := ⟨1, { length := 2, mass := 1, time := -3, current := -1 }⟩

def millivoltU : PintUnit := ⟨1/1000, { length := 2, mass := 1, time := -3, current := -1 }⟩

def pintDefaultRegistry : List (String × PintUnit) :=
  [("second", secondU),
   ("millisecond", millisecondU),
   ("meter", meterU),
   ("volt", voltU),
   ("millivolt", millivoltU),
   ("ampere", ⟨1, { current := 1 }⟩),
   ("mole", ⟨1, { amount := 1 }⟩),
   ("kilogram", ⟨1, { mass := 1 }⟩),
   ("dimensionless", ⟨1, {}⟩)]

/-- The unit added by UnitStore.__add_undefined_units (units.py lines 83-85):
ureg.define("katal = mol / second = kat"). -/
def katalU : PintUnit := ⟨1, { time := -1, amount := 1 }⟩

/-- UnitStore.__init__ (units.py lines 67-81): a brand new pint UnitRegistry
is constructed for this instance, katal is added to it, the custom CellML
definitions are stored, and cellml_defined starts empty. -/
def unitStoreInit (cellml_def : List (String × List UnitFragment)) : UnitStore :=
  { ureg := ("katal", katalU) :: pintDefaultRegistry,
    cellml_definitions := cellml_def,
    cellml_defined := [] }

/-- A world of several independent UnitStore instances (one per Model), and
the effect of running get_quantity on the store at index i: the store at i is
replaced by the state the call returns (its state on success; Python object
state on a failed lookup of an undeclared name is likewise per-instance). -/
def worldResolve (w : List UnitStore) (i : Nat) (fuel : Nat) (name : String) : List UnitStore :=
  match w.get? i with
  | none => w
  | some s =>
    match get_quantity fuel s name with
    | Except.ok (_, s') => w.set i s'
    | Except.error _ => w.set i s

/- Concrete stores used by counterexamples and witnesses. -/

/-- Scenario E store: custom unit X defined as Y^2 * milli-Z where the
custom units Y and Z appear after X in declaration order. -/
def storeA : UnitStore :=
  unitStoreInit
    [("X", [{ units := "Y", exponent := some 2 }, { units := "Z", pfx := some "milli" }]),
     ("Y", [{ units := "second" }]),
     ("Z", [{ units := "meter" }])]

/-- The same definitions with X declared last instead of first. -/
def storeB : UnitStore :=
  unitStoreInit
    [("Y", [{ units := "second" }]),
     ("Z", [{ units := "meter" }]),
     ("X", [{ units := "Y", exponent := some 2 }, { units := "Z", pfx := some "milli" }])]

/-- The unit X denotes: second^2 * (milli meter) = 1/1000 second^2 meter. -/
def xUnit : PintUnit := ⟨1/1000, { length := 1, time := 2 }⟩

def yUnit : PintUnit := secondU

def zUnit : PintUnit := meterU

/-- Store state after resolving the fragments of X on storeA: Y and Z have
been registered, X itself not yet. -/
def storeAPre : UnitStore :=
  { storeA with ureg := ("Z", zUnit) :: ("Y", yUnit) :: storeA.ureg,
                cellml_defined := ["Z", "Y"] }

/-- Final store state after get_quantity "X" on storeA. -/
def storeAFinal : UnitStore :=
  { storeAPre with ureg := ("X", xUnit) :: storeAPre.ureg,
                   cellml_defined := "X" :: storeAPre.cellml_defined }

/-- Final store state after get_quantity "X" on storeB. -/
def storeBFinal : UnitStore :=
  { storeB with ureg := ("X", xUnit) :: ("Z", zUnit) :: ("Y", yUnit) :: storeB.ureg,
                cellml_defined := ["X", "Z", "Y"] }

/-- A store whose only custom definition references an unknown unit name. -/
def brokenStore : UnitStore := unitStoreInit [("X", [{ units := "bogus" }])]

/-- A store with one well-formed custom definition, for the idempotence and
shadowing witnesses. -/
def storeMu : UnitStore := unitStoreInit [("mu", [{ units := "second" }])]

/-- Store state after resolving mu on storeMu. -/
def storeMuFinal : UnitStore :=
  { storeMu with ureg := ("mu", secondU) :: storeMu.ureg, cellml_defined := ["mu"] }

/-- A store that declares a custom definition under the name of a built-in
registry unit (name collision case of get_quantity). -/
def storeShadow : UnitStore := unitStoreInit [("second", [{ units := "meter" }])]

/-!
Parser embedding, from src/cellmlmanip/parser.py.

The XML layer (lxml etree) is out of scope of the specification; a
<component_ref> element is modelled by its component attribute and its child
<component_ref> elements, and a <group> element by the relationship
attributes of its <relationship_ref> children plus its top-level
<component_ref> children.
-/

/-- Modelled from the spec: the per-component hierarchy record of the Model
class (cellmlmanip.model is not among the sources; the data model section of
the specification gives each Component a parent reference, a set of
encapsulated child names and a set of sibling names, and the test suite
reads exactly these three attributes). -/
structure CompInfo where
  parent : Option String := none
  encapsulated : List String := []
  siblings : List String := []
deriving DecidableEq, Repr

/-- The hierarchy state of a model: for every component name, its hierarchy
record.  Parser.parse only ever touches components it has created, so the
model is a total map. -/
def Hierarchy : Type := String → CompInfo

/-- Modelled from the spec: Component.add_encapsulated adds a child name to
the encapsulated set (parser.py line 184 calls it). -/
def addEncapsulated (h : Hierarchy) (p c : String) : Hierarchy :=
  fun n => if n = p then { h p with encapsulated := c :: (h p).encapsulated } else h n

/-- Modelled from the spec: Component.set_parent stores the parent component
name (parser.py line 185 calls it). -/
def setParent (h : Hierarchy) (c p : String) : Hierarchy :=
  fun n => if n = c then { h c with parent := some p } else h n

/-- Modelled from the spec: Component.add_sibling adds a name to the sibling
set (parser.py line 195 calls it). -/
def addSibling (h : Hierarchy) (a b : String) : Hierarchy :=
  fun n => if n = a then { h a with siblings := b :: (h a).siblings } else h n

/-- Loop body of the sibling registration, parser.py lines 193-195: for a
pair from the cartesian product, register b as a sibling of a unless the
pair is a self-pair. -/
def sibStep : Hierarchy → String × String → Hierarchy :=
  fun h ab => if ab.1 ≠ ab.2 then addSibling h ab.1 ab.2 else h

/-- Sibling registration over itertools.product(siblings, siblings),
parser.py lines 191-195. -/
def addSiblingsPairwise (h : Hierarchy) (siblings : List String) : Hierarchy :=
  (siblings.product siblings).foldl sibStep h

/-- A <component_ref> element: its component attribute and its nested
<component_ref> children. -/
inductive ComponentRef : Type where
  | mk (component : String) (children : List ComponentRef)

/-- The component attributes of a list of <component_ref> elements, in
document order: the siblings list collected by the loop of
Parser.__handle_component_ref (parser.py lines 169-179). -/
def topNames : List ComponentRef → List String
  | [] => []
  | ComponentRef.mk c _ :: rest => c :: topNames rest

mutual
/-- One iteration of the loop in Parser.__handle_component_ref (parser.py
lines 172-188) on the child element (mk c kids): when a parent component is
present, record parent-to-child encapsulation and child-to-parent lineage
(lines 182-185), then descend into the element (line 188), whose own call
registers the pairwise siblings of kids (lines 191-195; the parent argument
of that call is always the component c, so only the length guard remains). -/
def walkOne : ComponentRef → Option String → Hierarchy → Hierarchy
  | ComponentRef.mk c kids, parent?, h =>
    let h1 := match parent? with
      | some p => setParent (addEncapsulated h p c) c p
      | none => h
    let h2 := walkList kids (some c) h1
    if (topNames kids).length > 1 then addSiblingsPairwise h2 (topNames kids) else h2
/-- The loop of Parser.__handle_component_ref over the child
<component_ref> elements, in document order. -/
def walkList : List ComponentRef → Option String → Hierarchy → Hierarchy
  | [], _, h => h
  | r :: rest, parent?, h => walkList rest parent? (walkOne r parent? h)
end

/-- Parser.__handle_component_ref (parser.py lines 167-195) on a parent tag
holding the given child elements: process every child, then, when called
with a parent component and more than one sibling, register the siblings
pairwise. -/
def handleComponentRef (refs : List ComponentRef) (parent? : Option String) (h : Hierarchy) :
    Hierarchy :=
  let h1 := walkList refs parent? h
  match parent? with
  | some _ => if (topNames refs).length > 1 then addSiblingsPairwise h1 (topNames refs) else h1
  | none => h1

mutual
/-- All component names occurring in a <component_ref> subtree. -/
def namesOfRef : ComponentRef → List String
  | ComponentRef.mk c kids => c :: namesOfForest kids
/-- All component names occurring in a list of <component_ref> subtrees. -/
def namesOfForest : List ComponentRef → List String
  | [] => []
  | r :: rest => namesOfRef r ++ namesOfForest rest
end

mutual
/-- The parent-to-child pairs of a <component_ref> subtree whose root is a
child of parent?. -/
def edgesOfR : ComponentRef → Option String → List (String × String)
  | ComponentRef.mk c kids, parent? =>
    (match parent? with | some p => [(p, c)] | none => []) ++ edgesOf kids (some c)
/-- The parent-to-child pairs of a list of subtrees sharing parent?. -/
def edgesOf : List ComponentRef → Option String → List (String × String)
  | [], _ => []
  | r :: rest, parent? => edgesOfR r parent? ++ edgesOf rest parent?
end

/-- All ordered pairs of distinct members of a list. -/
def pairsOf (l : List String) : List (String × String) :=
  (l.product l).filter (fun ab => decide (ab.1 ≠ ab.2))

mutual
/-- The ordered pairs of distinct components that share an immediate parent
inside a subtree (children of the root, then recursively). -/
def sibPairsR : ComponentRef → List (String × String)
  | ComponentRef.mk _ kids => pairsOf (topNames kids) ++ sibPairs kids
/-- The ordered pairs of distinct components sharing an immediate parent in
a forest; top-level roots have no parent component and contribute none. -/
def sibPairs : List ComponentRef → List (String × String)
  | [] => []
  | r :: rest => sibPairsR r ++ sibPairs rest
end

/-- A <group> element: the relationship attributes of its
<relationship_ref> children and its top-level <component_ref> children. -/
structure GroupElem where
  relationship_refs : List String
  component_refs : List ComponentRef

/-- Parser.__add_relationships (parser.py lines 151-165): for every <group>
element, assert that it has exactly one <relationship_ref>, and walk its
component_ref tree only when the relationship is encapsulation; all other
relationship kinds (e.g. containment) are skipped. -/
def addRelationships : List GroupElem → Hierarchy → Except String Hierarchy
  | [], h => Except.ok h
  | g :: gs, h =>
    match g.relationship_refs with
    | [relationship] =>
      if relationship = "encapsulation" then
        addRelationships gs (handleComponentRef g.component_refs none h)
      else addRelationships gs h
    | _ => Except.error "AssertionError: len(relationship_ref) == 1"

/-- Modelled from the spec: the MathML-to-Sympy transpiler
(cellmlmanip.mathml2sympy is not among the sources; the external-interface
section of the specification has it return a finite ordered sequence of
equations per math subtree).  A <math> element is represented by that
sequence, with equations as abstract identifiers. -/
abbrev MathElem : Type := List Nat

/-- Parser.__add_maths (parser.py lines 105-116): component_element.find
returns only the FIRST <math> child (or None), whose transpiled equations
are appended to the component equations; any further <math> elements are
dropped (the TODO on line 107 records this). -/
def addMaths (mathElements : List MathElem) (equations : List Nat) : List Nat :=
  match mathElements.head? with
  | some m => equations ++ m
  | none => equations

/-- The empty hierarchy: no parents, no encapsulation, no siblings. -/
def emptyHierarchy : Hierarchy := fun _ => {}

/-- The encapsulation tree of the circle components of
tests/test_parser.py::test_group_relationships. -/
def circleTree : List ComponentRef :=
  [ComponentRef.mk "circle_parent"
     [ComponentRef.mk "circle_x"
        [ComponentRef.mk "circle_x_source" [], ComponentRef.mk "circle_x_sibling" []],
      ComponentRef.mk "circle_y" []]]

/-- Two independent stores used by the isolation witness. -/
def twoStoreWorld : List UnitStore := [storeMu, unitStoreInit []]

/-!
Helper lemmas about the hierarchy primitives and the component_ref walk.
-/

theorem addEncapsulated_parent (h : Hierarchy) (p c n : String) :
    ((addEncapsulated h p c) n).parent = (h n).parent := by
  unfold addEncapsulated; split <;> simp_all

theorem setParent_parent_ne (h : Hierarchy) (c p n : String) (hne : n ≠ c) :
    ((setParent h c p) n).parent = (h n).parent := by
  unfold setParent; split <;> simp_all

theorem setParent_parent_self (h : Hierarchy) (c p : String) :
    ((setParent h c p) c).parent = some p := by
  unfold setParent; simp

theorem addSibling_parent (h : Hierarchy) (a b n : String) :
    ((addSibling h a b) n).parent = (h n).parent := by
  unfold addSibling; split <;> simp_all

theorem setParent_encap (h : Hierarchy) (c p n : String) :
    ((setParent h c p) n).encapsulated = (h n).encapsulated := by
  unfold setParent; split <;> simp_all

theorem setParent_sib (h : Hierarchy) (c p n : String) :
    ((setParent h c p) n).siblings = (h n).siblings := by
  unfold setParent; split <;> simp_all

theorem addEncapsulated_sib (h : Hierarchy) (p c n : String) :
    ((addEncapsulated h p c) n).siblings = (h n).siblings := by
  unfold addEncapsulated; split <;> simp_all

theorem addEncapsulated_encap_mono (h : Hierarchy) (p c n x : String)
    (hx : x ∈ (h n).encapsulated) : x ∈ ((addEncapsulated h p c) n).encapsulated := by
  unfold addEncapsulated; split
  next he => subst he; exact List.mem_cons_of_mem _ hx
  next => exact hx

theorem addEncapsulated_encap_self (h : Hierarchy) (p c : String) :
    c ∈ ((addEncapsulated h p c) p).encapsulated := by
  unfold addEncapsulated; simp

theorem addSibling_encap (h : Hierarchy) (a b n : String) :
    ((addSibling h a b) n).encapsulated = (h n).encapsulated := by
  unfold addSibling; split <;> simp_all

theorem addSibling_sib_mono (h : Hierarchy) (a b n x : String)
    (hx : x ∈ (h n).siblings) : x ∈ ((addSibling h a b) n).siblings := by
  unfold addSibling; split
  next he => subst he; exact List.mem_cons_of_mem _ hx
  next => exact hx

theorem addSibling_sib_self (h : Hierarchy) (a b : String) :
    b ∈ ((addSibling h a b) a).siblings := by
  unfold addSibling; simp

theorem foldl_sib_parent (pairs : List (String × String)) (h : Hierarchy) (n : String) :
    ((pairs.foldl sibStep h) n).parent = (h n).parent := by
  induction pairs generalizing h with
  | nil => rfl
  | cons ab rest ih =>
    simp only [List.foldl_cons]
    rw [ih]
    unfold sibStep; split <;> simp [addSibling_parent]

theorem foldl_sib_encap (pairs : List (String × String)) (h : Hierarchy) (n : String) :
    ((pairs.foldl sibStep h) n).encapsulated = (h n).encapsulated := by
  induction pairs generalizing h with
  | nil => rfl
  | cons ab rest ih =>
    simp only [List.foldl_cons]
    rw [ih]
    unfold sibStep; split <;> simp [addSibling_encap]

theorem foldl_sib_mono (pairs : List (String × String)) (h : Hierarchy) (n x : String)
    (hx : x ∈ (h n).siblings) : x ∈ ((pairs.foldl sibStep h) n).siblings := by
  induction pairs generalizing h with
  | nil => exact hx
  | cons ab rest ih =>
    simp only [List.foldl_cons]
    apply ih
    unfold sibStep; split
    next => exact addSibling_sib_mono _ _ _ _ _ hx
    next => exact hx

theorem foldl_sib_adds (pairs : List (String × String)) (h : Hierarchy) (a b : String)
    (hab : (a, b) ∈ pairs) (hne : a ≠ b) : b ∈ ((pairs.foldl sibStep h) a).siblings := by
  induction pairs generalizing h with
  | nil => cases hab
  | cons ab rest ih =>
    simp only [List.foldl_cons]
    rcases List.mem_cons.mp hab with he | ht
    · apply foldl_sib_mono
      subst he
      unfold sibStep
      rw [if_pos hne]
      exact addSibling_sib_self _ _ _
    · exact ih _ ht

theorem foldl_sib_no_self (pairs : List (String × String)) (h : Hierarchy) (n : String)
    (hn : n ∉ (h n).siblings) : n ∉ ((pairs.foldl sibStep h) n).siblings := by
  induction pairs generalizing h with
  | nil => exact hn
  | cons ab rest ih =>
    simp only [List.foldl_cons]
    apply ih
    unfold sibStep
    split
    next hne =>
      unfold addSibling
      split
      next he =>
        subst he
        simp only [List.mem_cons, not_or]
        exact ⟨fun hb => hne (by rw [hb]), hn⟩
      next => exact hn
    next => exact hn

theorem addSiblingsPairwise_parent (h : Hierarchy) (l : List String) (n : String) :
    ((addSiblingsPairwise h l) n).parent = (h n).parent :=
  foldl_sib_parent _ h n

theorem asp_encap (h : Hierarchy) (l : List String) (n : String) :
    ((addSiblingsPairwise h l) n).encapsulated = (h n).encapsulated :=
  foldl_sib_encap _ h n

theorem asp_sib_mono (h : Hierarchy) (l : List String) (n x : String)
    (hx : x ∈ (h n).siblings) : x ∈ ((addSiblingsPairwise h l) n).siblings :=
  foldl_sib_mono _ h n x hx

theorem asp_adds (h : Hierarchy) (l : List String) (a b : String)
    (ha : a ∈ l) (hb : b ∈ l) (hne : a ≠ b) :
    b ∈ ((addSiblingsPairwise h l) a).siblings :=
  foldl_sib_adds _ h a b (List.pair_mem_product.mpr ⟨ha, hb⟩) hne

theorem asp_no_self (h : Hierarchy) (l : List String) (n : String)
    (hn : n ∉ (h n).siblings) : n ∉ ((addSiblingsPairwise h l) n).siblings :=
  foldl_sib_no_self _ h n hn

mutual
theorem walkOne_parent_frame (r : ComponentRef) (p? : Option String) (h : Hierarchy)
    (n : String) (hn : n ∉ namesOfRef r) : ((walkOne r p? h) n).parent = (h n).parent := by
  match r with
  | ComponentRef.mk c kids =>
    simp only [namesOfRef, List.mem_cons, not_or] at hn
    simp only [walkOne]
    split
    next =>
      rw [addSiblingsPairwise_parent,
          walkList_parent_frame kids (some c) _ n hn.2]
      cases p? with
      | none => rfl
      | some p => rw [setParent_parent_ne _ _ _ _ hn.1, addEncapsulated_parent]
    next =>
      rw [walkList_parent_frame kids (some c) _ n hn.2]
      cases p? with
      | none => rfl
      | some p => rw [setParent_parent_ne _ _ _ _ hn.1, addEncapsulated_parent]
theorem walkList_parent_frame (refs : List ComponentRef) (p? : Option String) (h : Hierarchy)
    (n : String) (hn : n ∉ namesOfForest refs) :
    ((walkList refs p? h) n).parent = (h n).parent := by
  match refs with
  | [] => rfl
  | r :: rest =>
    simp only [namesOfForest, List.mem_append, not_or] at hn
    simp only [walkList]
    rw [walkList_parent_frame rest p? _ n hn.2,
        walkOne_parent_frame r p? h n hn.1]
end

mutual
theorem walkOne_encap_mono (r : ComponentRef) (p? : Option String) (h : Hierarchy)
    (n x : String) (hx : x ∈ (h n).encapsulated) :
    x ∈ ((walkOne r p? h) n).encapsulated := by
  match r with
  | ComponentRef.mk c kids =>
    simp only [walkOne]
    split
    next =>
      rw [asp_encap]
      apply walkList_encap_mono kids (some c) _ n x
      cases p? with
      | none => exact hx
      | some p => rw [setParent_encap]; exact addEncapsulated_encap_mono _ _ _ _ _ hx
    next =>
      apply walkList_encap_mono kids (some c) _ n x
      cases p? with
      | none => exact hx
      | some p => rw [setParent_encap]; exact addEncapsulated_encap_mono _ _ _ _ _ hx
theorem walkList_encap_mono (refs : List ComponentRef) (p? : Option String) (h : Hierarchy)
    (n x : String) (hx : x ∈ (h n).encapsulated) :
    x ∈ ((walkList refs p? h) n).encapsulated := by
  match refs with
  | [] => exact hx
  | r :: rest =>
    simp only [walkList]
    exact walkList_encap_mono rest p? _ n x (walkOne_encap_mono r p? h n x hx)
end

mutual
theorem walkOne_sib_mono (r : ComponentRef) (p? : Option String) (h : Hierarchy)
    (n x : String) (hx : x ∈ (h n).siblings) :
    x ∈ ((walkOne r p? h) n).siblings := by
  match r with
  | ComponentRef.mk c kids =>
    simp only [walkOne]
    split
    next =>
      apply asp_sib_mono
      apply walkList_sib_mono kids (some c) _ n x
      cases p? with
      | none => exact hx
      | some p => rw [setParent_sib, addEncapsulated_sib]; exact hx
    next =>
      apply walkList_sib_mono kids (some c) _ n x
      cases p? with
      | none => exact hx
      | some p => rw [setParent_sib, addEncapsulated_sib]; exact hx
theorem walkList_sib_mono (refs : List ComponentRef) (p? : Option String) (h : Hierarchy)
    (n x : String) (hx : x ∈ (h n).siblings) :
    x ∈ ((walkList refs p? h) n).siblings := by
  match refs with
  | [] => exact hx
  | r :: rest =>
    simp only [walkList]
    exact walkList_sib_mono rest p? _ n x (walkOne_sib_mono r p? h n x hx)
end

mutual
theorem edgesOfR_snd_mem (r : ComponentRef) (p? : Option String) (p c : String)
    (he : (p, c) ∈ edgesOfR r p?) : c ∈ namesOfRef r := by
  match r with
  | ComponentRef.mk c0 kids =>
    simp only [edgesOfR, List.mem_append] at he
    simp only [namesOfRef, List.mem_cons]
    rcases he with he | he
    · cases p? with
      | none => cases he
      | some q =>
        simp only [List.mem_singleton, Prod.mk.injEq] at he
        exact Or.inl he.2
    · exact Or.inr (edgesOf_snd_mem kids (some c0) p c he)
theorem edgesOf_snd_mem (refs : List ComponentRef) (p? : Option String) (p c : String)
    (he : (p, c) ∈ edgesOf refs p?) : c ∈ namesOfForest refs := by
  match refs with
  | [] => cases he
  | r :: rest =>
    simp only [edgesOf, List.mem_append] at he
    simp only [namesOfForest, List.mem_append]
    rcases he with he | he
    · exact Or.inl (edgesOfR_snd_mem r p? p c he)
    · exact Or.inr (edgesOf_snd_mem rest p? p c he)
end

theorem pairsOf_mem (l : List String) (a b : String) :
    (a, b) ∈ pairsOf l ↔ a ∈ l ∧ b ∈ l ∧ a ≠ b := by
  unfold pairsOf
  rw [List.mem_filter, List.pair_mem_product]
  simp [and_assoc]

theorem two_mem_length (l : List String) (a b : String) (ha : a ∈ l) (hb : b ∈ l)
    (hne : a ≠ b) : 1 < l.length := by
  match l with
  | [] => cases ha
  | [x] =>
    rw [List.mem_singleton] at ha hb
    exact absurd (ha.trans hb.symm) hne
  | x :: y :: t => simp only [List.length_cons]; omega

mutual
theorem walkOne_edges (r : ComponentRef) (p? : Option String) (h : Hierarchy)
    (p c : String) (hnd : (namesOfRef r).Nodup) (he : (p, c) ∈ edgesOfR r p?) :
    ((walkOne r p? h) c).parent = some p ∧ c ∈ ((walkOne r p? h) p).encapsulated := by
  match r with
  | ComponentRef.mk c0 kids =>
    simp only [namesOfRef, List.nodup_cons] at hnd
    cases p? with
    | none =>
      simp only [edgesOfR, List.nil_append] at he
      have key := walkList_edges kids (some c0) h p c hnd.2 he
      simp only [walkOne]
      split
      next =>
        exact ⟨by rw [addSiblingsPairwise_parent]; exact key.1,
               by rw [asp_encap]; exact key.2⟩
      next => exact key
    | some q =>
      simp only [edgesOfR, List.mem_append, List.mem_singleton, Prod.mk.injEq] at he
      simp only [walkOne]
      rcases he with ⟨hpq, hcc⟩ | he
      · subst hpq; subst hcc
        have h1par : ((setParent (addEncapsulated h p c) c p) c).parent = some p :=
          setParent_parent_self _ _ _
        have h1enc : c ∈ ((setParent (addEncapsulated h p c) c p) p).encapsulated := by
          rw [setParent_encap]; exact addEncapsulated_encap_self _ _ _
        have h2par : ((walkList kids (some c) (setParent (addEncapsulated h p c) c p)) c).parent
            = some p := by
          rw [walkList_parent_frame kids (some c) _ c hnd.1]; exact h1par
        have h2enc : c ∈ ((walkList kids (some c)
            (setParent (addEncapsulated h p c) c p)) p).encapsulated :=
          walkList_encap_mono _ _ _ _ _ h1enc
        split
        next =>
          exact ⟨by rw [addSiblingsPairwise_parent]; exact h2par,
                 by rw [asp_encap]; exact h2enc⟩
        next => exact ⟨h2par, h2enc⟩
      · have key := walkList_edges kids (some c0) (setParent (addEncapsulated h q c0) c0 q)
          p c hnd.2 he
        split
        next =>
          exact ⟨by rw [addSiblingsPairwise_parent]; exact key.1,
                 by rw [asp_encap]; exact key.2⟩
        next => exact key
theorem walkList_edges (refs : List ComponentRef) (p? : Option String) (h : Hierarchy)
    (p c : String) (hnd : (namesOfForest refs).Nodup) (he : (p, c) ∈ edgesOf refs p?) :
    ((walkList refs p? h) c).parent = some p ∧ c ∈ ((walkList refs p? h) p).encapsulated := by
  match refs with
  | [] => cases he
  | r :: rest =>
    simp only [namesOfForest] at hnd
    rw [List.nodup_append] at hnd
    simp only [edgesOf, List.mem_append] at he
    simp only [walkList]
    rcases he with he | he
    · have key := walkOne_edges r p? h p c hnd.1 he
      have hc : c ∉ namesOfForest rest := hnd.2.2 (edgesOfR_snd_mem r p? p c he)
      exact ⟨by rw [walkList_parent_frame rest p? _ c hc]; exact key.1,
             walkList_encap_mono _ _ _ _ _ key.2⟩
    · exact walkList_edges rest p? _ p c hnd.2.1 he
end

mutual
theorem walkOne_sibs (r : ComponentRef) (p? : Option String) (h : Hierarchy)
    (a b : String) (hab : (a, b) ∈ sibPairsR r) :
    b ∈ ((walkOne r p? h) a).siblings := by
  match r with
  | ComponentRef.mk c0 kids =>
    simp only [sibPairsR, List.mem_append] at hab
    simp only [walkOne]
    rcases hab with hab | hab
    · have hmem := (pairsOf_mem _ a b).mp hab
      have hlen : (topNames kids).length > 1 :=
        two_mem_length _ a b hmem.1 hmem.2.1 hmem.2.2
      rw [if_pos hlen]
      exact asp_adds _ _ a b hmem.1 hmem.2.1 hmem.2.2
    · have key := walkList_sibs kids (some c0) ((match p? with
        | some p => setParent (addEncapsulated h p c0) c0 p
        | none => h : Hierarchy)) a b hab
      split
      next => exact asp_sib_mono _ _ _ _ key
      next => exact key
theorem walkList_sibs (refs : List ComponentRef) (p? : Option String) (h : Hierarchy)
    (a b : String) (hab : (a, b) ∈ sibPairs refs) :
    b ∈ ((walkList refs p? h) a).siblings := by
  match refs with
  | [] => cases hab
  | r :: rest =>
    simp only [sibPairs, List.mem_append] at hab
    simp only [walkList]
    rcases hab with hab | hab
    · exact walkList_sib_mono rest p? _ a b (walkOne_sibs r p? h a b hab)
    · exact walkList_sibs rest p? _ a b hab
end

mutual
theorem walkOne_no_self (r : ComponentRef) (p? : Option String) (h : Hierarchy)
    (n : String) (hn : n ∉ (h n).siblings) : n ∉ ((walkOne r p? h) n).siblings := by
  match r with
  | ComponentRef.mk c0 kids =>
    simp only [walkOne]
    have h1 : n ∉ (((match p? with
        | some p => setParent (addEncapsulated h p c0) c0 p
        | none => h) : Hierarchy) n).siblings := by
      cases p? with
      | none => exact hn
      | some p => rw [setParent_sib, addEncapsulated_sib]; exact hn
    have h2 := walkList_no_self kids (some c0) _ n h1
    split
    next => exact asp_no_self _ _ _ h2
    next => exact h2
theorem walkList_no_self (refs : List ComponentRef) (p? : Option String) (h : Hierarchy)
    (n : String) (hn : n ∉ (h n).siblings) : n ∉ ((walkList refs p? h) n).siblings := by
  match refs with
  | [] => exact hn
  | r :: rest =>
    simp only [walkList]
    exact walkList_no_self rest p? _ n (walkOne_no_self r p? h n hn)
end

/-!
Helper lemmas about the unit store.
-/

theorem isClose_self (x : ℚ) : isClose x x = true := by
  unfold isClose
  rw [decide_eq_true_eq, sub_self, abs_zero]
  exact le_max_right _ _

theorem buildCustom_of_found (gq : UnitStore → String → Except String (PintUnit × UnitStore))
    (s : UnitStore) (name : String) (u : PintUnit) (h : s.ureg.lookup name = some u) :
    buildCustom gq s name = Except.ok s := by
  unfold buildCustom
  split
  next => rw [h]
  next => rfl

theorem gq_ok_lookup (n : Nat) (s : UnitStore) (name : String) (u : PintUnit) (s' : UnitStore)
    (h : get_quantity (n+1) s name = Except.ok (u, s')) :
    s'.ureg.lookup name = some u := by
  simp only [get_quantity] at h
  cases hb : buildCustom (get_quantity n) s name with
  | error e => simp only [hb] at h; simp at h
  | ok s1 =>
    simp only [hb] at h
    cases hl : s1.ureg.lookup name with
    | none => simp only [hl] at h; simp at h
    | some u0 =>
      simp only [hl, Except.ok.injEq, Prod.mk.injEq] at h
      obtain ⟨hu, hs⟩ := h
      subst hu; subst hs
      exact hl

/-!
The claims.
-/

/-- C1: UnitStore.is_unit_equal u1 u2 is true exactly when the two units
have the same dimensionality and the multiplicative conversion factor
between them is 1 within the math.isclose floating tolerance; in
particular second and millisecond share a dimension but differ in scale
and compare as not equal. -/
theorem is_unit_equal_exact_scale_equality :
    (∀ u1 u2 : PintUnit, is_unit_equal u1 u2 = true ↔
        (u1.dim = u2.dim ∧
          ∃ f, get_conversion_factor u1 u2 = Except.ok f ∧ isClose f 1 = true))
    ∧ is_unit_equal secondU millisecondU = false
    ∧ secondU.dim = millisecondU.dim := by
  refine ⟨?_, ?_, rfl⟩
  · intro u1 u2
    constructor
    · intro h
      rw [is_unit_equal, Bool.and_eq_true, decide_eq_true_eq] at h
      refine ⟨h.1, u1.scale / u2.scale, ?_, h.2⟩
      rw [get_conversion_factor, if_pos h.1]
    · rintro ⟨hd, f, hf, hc⟩
      rw [get_conversion_factor, if_pos hd] at hf
      simp only [Except.ok.injEq] at hf
      rw [is_unit_equal, Bool.and_eq_true, decide_eq_true_eq]
      exact ⟨hd, hf ▸ hc⟩
  · norm_num [is_unit_equal, isClose, secondU, millisecondU]

/-- C2 (amended): when a unit name is neither resolvable by the unit
registry nor declared as a custom CellML definition, get_quantity fails
with the ValueError message naming it.  (When the name does have a declared
definition whose recursive resolution hits an unknown inner unit, the
propagated error names that inner unit instead, see the counterexample.) -/
theorem get_quantity_unknown_name_error :
    ∀ (fuel : Nat) (s : UnitStore) (name : String),
      s.cellml_definitions.lookup name = none →
      s.ureg.lookup name = none →
      get_quantity (fuel+1) s name =
        Except.error ("Cannot find the unit with name \"" ++ name ++ "\"") := by
  intro fuel s name hdef hreg
  simp [get_quantity, buildCustom, hdef, hreg]

/-- C2 witness: an undeclared, unknown name produces exactly the
ValueError message. -/
theorem get_quantity_unknown_name_error_witness :
    get_quantity 4 (unitStoreInit []) "flux" =
      Except.error ("Cannot find the unit with name \"" ++ "flux" ++ "\"") :=
  get_quantity_unknown_name_error 3 (unitStoreInit []) "flux" (by simp [unitStoreInit])
    (by simp [unitStoreInit, pintDefaultRegistry, katalU, List.lookup])

/-- C2 counterexample: the name X is not resolvable by the registry and not
buildable from its declared definition (the definition references the
unknown name bogus), yet the error message raised by get_quantity names
bogus, not X. -/
theorem get_quantity_error_names_inner_unit :
    brokenStore.ureg.lookup "X" = none ∧
    get_quantity 9 brokenStore "X" = Except.error "Cannot find the unit with name \"bogus\"" ∧
    "Cannot find the unit with name \"bogus\"" ≠ "Cannot find the unit with name \"X\"" := by
  refine ⟨by simp [brokenStore, unitStoreInit, pintDefaultRegistry, katalU, List.lookup],
    ?_, by decide⟩
  simp [get_quantity, buildCustom, make_cellml_unit, resolveFragments, brokenStore,
        unitStoreInit, pintDefaultRegistry, katalU, applyPfx, applyExponent, pfxScale, unitOne,
        List.lookup]

/-- C3: a custom unit whose declared fragments all resolve (each fragment
resolved recursively through get_quantity, with its metric prefix and
integer exponent applied) is built as the fragment product, registered
under its name and returned; concretely, X = Y^2 * milli-Z succeeds both
when X is declared before and after the custom units Y and Z. -/
theorem custom_unit_recursive_resolution :
    (∀ (n : Nat) (s : UnitStore) (name : String) (frags : List UnitFragment)
        (u : PintUnit) (s' : UnitStore),
        s.cellml_definitions.lookup name = some frags →
        s.cellml_defined.contains name = false →
        s.ureg.lookup name = none →
        resolveFragments (get_quantity n) frags unitOne s = Except.ok (u, s') →
        get_quantity (n+1) s name =
          Except.ok (u, { s' with ureg := (name, u) :: s'.ureg,
                                  cellml_defined := name :: s'.cellml_defined }))
    ∧ get_quantity 9 storeA "X" = Except.ok (xUnit, storeAFinal)
    ∧ get_quantity 9 storeB "X" = Except.ok (xUnit, storeBFinal) := by
  refine ⟨?_, ?_, ?_⟩
  · intro n s name frags u s' hdef hcon hreg hres
    have hmem : name ∉ s.cellml_defined := by simpa using hcon
    simp [get_quantity, buildCustom, make_cellml_unit, hdef, hmem, hreg, hres, List.lookup]
  · simp [get_quantity, buildCustom, make_cellml_unit, resolveFragments, storeA, storeAFinal,
          storeAPre, unitStoreInit, pintDefaultRegistry, katalU, applyPfx, applyExponent,
          pfxScale, unitOne, PintUnit.mul, PintUnit.zpowU, List.lookup, xUnit, yUnit, zUnit,
          secondU, millisecondU, meterU, voltU, millivoltU]
  · simp [get_quantity, buildCustom, make_cellml_unit, resolveFragments, storeB, storeBFinal,
          unitStoreInit, pintDefaultRegistry, katalU, applyPfx, applyExponent,
          pfxScale, unitOne, PintUnit.mul, PintUnit.zpowU, List.lookup, xUnit, yUnit, zUnit,
          secondU, millisecondU, meterU, voltU, millivoltU]

/-- C3 witness: the general clause applied to storeA at fuel 8, with the
fragment resolution discharged concretely. -/
theorem custom_unit_recursive_resolution_witness :
    get_quantity 9 storeA "X" =
      Except.ok (xUnit, { storeAPre with ureg := ("X", xUnit) :: storeAPre.ureg,
                                         cellml_defined := "X" :: storeAPre.cellml_defined }) :=
  custom_unit_recursive_resolution.1 8 storeA "X"
    [{ units := "Y", exponent := some 2 }, { units := "Z", pfx := some "milli" }]
    xUnit storeAPre
    (by simp [storeA, unitStoreInit, List.lookup])
    (by simp [storeA, unitStoreInit])
    (by simp [storeA, unitStoreInit, pintDefaultRegistry, katalU, List.lookup])
    (by simp [resolveFragments, get_quantity, buildCustom, make_cellml_unit, storeA, storeAPre,
              unitStoreInit, pintDefaultRegistry, katalU, applyPfx, applyExponent, pfxScale,
              unitOne, PintUnit.mul, PintUnit.zpowU, List.lookup, xUnit, yUnit, zUnit,
              secondU, millisecondU, meterU, voltU, millivoltU])

/-- C4: get_conversion_factor requires equal dimensionality, failing with
the assertion otherwise, and on dimensionally equal units returns the
factor that converts a magnitude expressed in from_unit into the equivalent
magnitude expressed in to_unit (a magnitude m of from_unit and the
converted magnitude m * f of to_unit denote the same base-unit quantity). -/
theorem get_conversion_factor_spec :
    (∀ u1 u2 : PintUnit, u1.dim ≠ u2.dim →
        get_conversion_factor u1 u2 =
          Except.error "AssertionError: from_unit.dimensionality == to_unit.dimensionality")
    ∧ (∀ u1 u2 : PintUnit, u1.dim = u2.dim → u2.scale ≠ 0 →
        ∃ f, get_conversion_factor u1 u2 = Except.ok f ∧
          ∀ m : ℚ, (m * f) * u2.scale = m * u1.scale) := by
  constructor
  · intro u1 u2 hne
    rw [get_conversion_factor, if_neg hne]
  · intro u1 u2 hd hz
    refine ⟨u1.scale / u2.scale, by rw [get_conversion_factor, if_pos hd], fun m => ?_⟩
    rw [mul_assoc, div_mul_cancel₀ _ hz]

/-- C4 witness: volt against second fails the dimensionality assertion;
millivolt to volt converts magnitudes correctly. -/
theorem get_conversion_factor_spec_witness :
    (get_conversion_factor voltU secondU =
        Except.error "AssertionError: from_unit.dimensionality == to_unit.dimensionality")
    ∧ ∃ f, get_conversion_factor millivoltU voltU = Except.ok f ∧
        ∀ m : ℚ, (m * f) * voltU.scale = m * millivoltU.scale :=
  ⟨get_conversion_factor_spec.1 voltU secondU (by decide),
   get_conversion_factor_spec.2 millivoltU voltU (by decide) (by norm_num [voltU])⟩

/-- C5: for dimensionally compatible unit pairs the conversion factors in
the two directions are exact reciprocals, hence also reciprocals within
the floating tolerance. -/
theorem get_conversion_factor_roundtrip :
    ∀ a b : PintUnit, a.dim = b.dim →
      ∃ f g, get_conversion_factor a b = Except.ok f ∧
        get_conversion_factor b a = Except.ok g ∧
        g = 1 / f ∧ isClose g (1 / f) = true := by
  intro a b hd
  refine ⟨a.scale / b.scale, b.scale / a.scale,
    by rw [get_conversion_factor, if_pos hd],
    by rw [get_conversion_factor, if_pos hd.symm],
    (one_div_div _ _).symm, ?_⟩
  rw [one_div_div]
  exact isClose_self _

/-- C5 witness: the second / millisecond round trip. -/
theorem get_conversion_factor_roundtrip_witness :
    ∃ f g, get_conversion_factor secondU millisecondU = Except.ok f ∧
      get_conversion_factor millisecondU secondU = Except.ok g ∧
      g = 1 / f ∧ isClose g (1 / f) = true :=
  get_conversion_factor_roundtrip secondU millisecondU (by decide)

/-- C6: resolving a name a second time is idempotent: after a successful
get_quantity call, repeating the call on the resulting store returns the
same unit and the identical store state (no new registration); moreover a
custom name that was actually built is memoized in cellml_defined by the
first call. -/
theorem get_quantity_idempotent :
    ∀ (n m : Nat) (s : UnitStore) (name : String) (u : PintUnit) (s' : UnitStore),
      get_quantity (n+1) s name = Except.ok (u, s') →
      (get_quantity (m+1) s' name = Except.ok (u, s') ∧
        ((s.cellml_definitions.lookup name).isSome = true →
          s.ureg.lookup name = none →
          name ∈ s'.cellml_defined)) := by
  intro n m s name u s' h
  have hlk : s'.ureg.lookup name = some u := gq_ok_lookup n s name u s' h
  refine ⟨?_, ?_⟩
  · simp only [get_quantity, buildCustom_of_found (get_quantity m) s' name u hlk, hlk]
  · intro hdef hreg
    simp only [get_quantity] at h
    cases hcb : s.cellml_defined.contains name with
    | true =>
      have hb : buildCustom (get_quantity n) s name = Except.ok s := by
        unfold buildCustom
        rw [hcb]
        simp
      rw [hb] at h
      simp only [hreg] at h
      simp at h
    | false =>
      simp only [buildCustom, hdef, hcb, Bool.not_false, Bool.and_self, if_true, hreg] at h
      cases hmk : make_cellml_unit (get_quantity n) s name with
      | error e => simp only [hmk] at h; simp at h
      | ok p =>
        obtain ⟨u0, s2⟩ := p
        simp only [hmk, List.lookup] at h
        simp only [BEq.refl, Except.ok.injEq, Prod.mk.injEq] at h
        obtain ⟨hu, hs⟩ := h
        rw [← hs]
        exact List.mem_cons_self _ _

/-- C6 witness: resolving the custom unit mu twice on a concrete store:
the second call returns the same cached unit and leaves the store
unchanged, and mu is memoized as defined. -/
theorem get_quantity_idempotent_witness :
    (get_quantity 3 storeMuFinal "mu" = Except.ok (secondU, storeMuFinal)) ∧
      "mu" ∈ storeMuFinal.cellml_defined :=
  ⟨(get_quantity_idempotent 1 2 storeMu "mu" secondU storeMuFinal
      (by simp [get_quantity, buildCustom, make_cellml_unit, resolveFragments, storeMu,
                storeMuFinal, unitStoreInit, pintDefaultRegistry, katalU, applyPfx,
                applyExponent, unitOne, PintUnit.mul, List.lookup, secondU])).1,
   (get_quantity_idempotent 1 2 storeMu "mu" secondU storeMuFinal
      (by simp [get_quantity, buildCustom, make_cellml_unit, resolveFragments, storeMu,
                storeMuFinal, unitStoreInit, pintDefaultRegistry, katalU, applyPfx,
                applyExponent, unitOne, PintUnit.mul, List.lookup, secondU])).2
     (by simp [storeMu, unitStoreInit, List.lookup])
     (by simp [storeMu, unitStoreInit, pintDefaultRegistry, katalU, List.lookup])⟩

/-- C7: building the hierarchy processes only encapsulation groups (a group
of any other relationship kind leaves the hierarchy unchanged); the
depth-first walk records, for each non-root node, the parent-to-child
encapsulation and the child-to-parent lineage, and all children sharing an
immediate parent are registered as mutual siblings pairwise, never as
siblings of themselves. -/
theorem relationships_encapsulation_only :
    (∀ (rel : String) (refs : List ComponentRef) (h : Hierarchy),
        rel ≠ "encapsulation" → addRelationships [⟨[rel], refs⟩] h = Except.ok h)
    ∧ (∀ (refs : List ComponentRef) (h : Hierarchy),
        addRelationships [⟨["encapsulation"], refs⟩] h =
          Except.ok (handleComponentRef refs none h))
    ∧ (∀ (refs : List ComponentRef) (h : Hierarchy) (p c : String),
        (namesOfForest refs).Nodup → (p, c) ∈ edgesOf refs none →
        ((handleComponentRef refs none h) c).parent = some p ∧
          c ∈ ((handleComponentRef refs none h) p).encapsulated)
    ∧ (∀ (refs : List ComponentRef) (h : Hierarchy) (a b : String),
        (a, b) ∈ sibPairs refs →
        b ∈ ((handleComponentRef refs none h) a).siblings)
    ∧ (∀ (refs : List ComponentRef) (h : Hierarchy) (n : String),
        n ∉ (h n).siblings →
        n ∉ ((handleComponentRef refs none h) n).siblings) := by
  refine ⟨?_, ?_, ?_, ?_, ?_⟩
  · intro rel refs h hne
    simp only [addRelationships]
    rw [if_neg hne]
  · intro refs h
    simp [addRelationships]
  · intro refs h p c hnd he
    exact walkList_edges refs none h p c hnd he
  · intro refs h a b hab
    exact walkList_sibs refs none h a b hab
  · intro refs h n hn
    exact walkList_no_self refs none h n hn

/-- C7 witness: the circle component tree of the test model: a containment
group is ignored, circle_x_source records its parent and is recorded as
encapsulated, the two children of circle_x are mutual siblings, and no
component becomes its own sibling. -/
theorem relationships_encapsulation_only_witness :
    (addRelationships [⟨["containment"], circleTree⟩] emptyHierarchy =
        Except.ok emptyHierarchy)
    ∧ ((handleComponentRef circleTree none emptyHierarchy) "circle_x_source").parent =
        some "circle_x"
    ∧ "circle_x_source" ∈
        ((handleComponentRef circleTree none emptyHierarchy) "circle_x").encapsulated
    ∧ "circle_x_sibling" ∈
        ((handleComponentRef circleTree none emptyHierarchy) "circle_x_source").siblings
    ∧ "circle_x_source" ∉
        ((handleComponentRef circleTree none emptyHierarchy) "circle_x_source").siblings := by
  refine ⟨relationships_encapsulation_only.1 "containment" circleTree emptyHierarchy
      (by decide),
    (relationships_encapsulation_only.2.2.1 circleTree emptyHierarchy "circle_x"
      "circle_x_source" (by decide) (by decide)).1,
    (relationships_encapsulation_only.2.2.1 circleTree emptyHierarchy "circle_x"
      "circle_x_source" (by decide) (by decide)).2,
    relationships_encapsulation_only.2.2.2.1 circleTree emptyHierarchy "circle_x_source"
      "circle_x_sibling" (by decide),
    relationships_encapsulation_only.2.2.2.2 circleTree emptyHierarchy "circle_x_source"
      (by simp [emptyHierarchy])⟩

/-- C8: Parser.__add_maths keeps only the first <math> element of a
component: on a component holding two <math> elements that transpile to
equations 1 and 2 respectively, only equation 1 is collected, not both.
The claim (and the test test_multiple_math_elements) expects all of them;
the TODO on parser.py line 107 records the slip. -/
theorem add_maths_first_math_only :
    addMaths [[1], [2]] [] = [1] ∧ addMaths [[1], [2]] [] ≠ [1, 2] :=
  ⟨rfl, by decide⟩

/-- C9: no mutable unit table is shared between UnitStore instances: the
constructor builds the same fresh registry content whatever the custom
definitions are, and running get_quantity against the store at one index
of a world of stores leaves every other store untouched. -/
theorem unit_store_isolation :
    (∀ d1 d2 : List (String × List UnitFragment),
        (unitStoreInit d1).ureg = (unitStoreInit d2).ureg ∧
        (unitStoreInit d1).cellml_defined = (unitStoreInit d2).cellml_defined ∧
        (unitStoreInit d1).cellml_definitions = d1)
    ∧ (∀ (w : List UnitStore) (i j fuel : Nat) (name : String), i ≠ j →
        (worldResolve w i fuel name).get? j = w.get? j) := by
  constructor
  · intro d1 d2
    exact ⟨rfl, rfl, rfl⟩
  · intro w i j fuel name hij
    unfold worldResolve
    cases hw : w.get? i with
    | none => rfl
    | some s =>
      cases hq : get_quantity fuel s name with
      | error e =>
        simp only [hq]
        exact List.get?_set_ne _ _ hij
      | ok p =>
        obtain ⟨u, s'⟩ := p
        simp only [hq]
        exact List.get?_set_ne _ _ hij

/-- C9 witness: resolving a custom unit in the store at index 0 leaves the
store at index 1 exactly as it was. -/
theorem unit_store_isolation_witness :
    (worldResolve twoStoreWorld 0 9 "mu").get? 1 = twoStoreWorld.get? 1 :=
  unit_store_isolation.2 twoStoreWorld 0 1 9 "mu" (by decide)

/-- C10: when a name has a custom CellML definition but is already
resolvable by the registry, get_quantity returns the pre-existing registry
unit and performs no registration at all: the store is returned unchanged,
so the custom definition is never materialised. -/
theorem get_quantity_registry_shadows_custom :
    ∀ (n : Nat) (s : UnitStore) (name : String) (u : PintUnit),
      (s.cellml_definitions.lookup name).isSome = true →
      name ∉ s.cellml_defined →
      s.ureg.lookup name = some u →
      get_quantity (n+1) s name = Except.ok (u, s) := by
  intro n s name u hdef hcon hreg
  simp [get_quantity, buildCustom, hdef, hcon, hreg]

/-- C10 witness: a model redefining the built-in name second gets the
registry second back, with the store unchanged. -/
theorem get_quantity_registry_shadows_custom_witness :
    get_quantity 5 storeShadow "second" = Except.ok (secondU, storeShadow) :=
  get_quantity_registry_shadows_custom 4 storeShadow "second" secondU
    (by simp [storeShadow, unitStoreInit, List.lookup])
    (by simp [storeShadow, unitStoreInit])
    (by simp [storeShadow, unitStoreInit, pintDefaultRegistry, katalU, List.lookup])
